import Mathlib

/-!
Shallow embedding of the roof-estimator webhook handlers
(`src/api/roof.js`, variants 1-3, and the iterations in `src/unnamed/`).

JavaScript values appearing in the JSON payloads are modelled by the
mutual inductive `Json`; JavaScript numbers are modelled by `JSNum`
(finite rationals plus NaN and the two infinities — binary floating
point rounding is not modelled, arithmetic is exact).  String coercion
(`String(x)`), numeric coercion (`Number(x)`), truthiness, `||`
chaining, `Math.ceil`/`Math.floor`/`Math.min`/`Math.max` and the
`toFixed(2)` currency rounding are modelled explicitly below.
External effects (the geocode fetch, the Solar API fetch, the CRM
write-back fetch) are modelled by environment values describing the
outcome of each outbound call, and handlers additionally return the
list of outbound calls they attempted.
-/

/-! JSON-like JavaScript values (the payload shapes the handlers receive).
`JsonList` and `JsonFields` are unrolled list types so that all
recursions over `Json` are structural. -/
mutual
inductive Json where
  | null
  | bool (b : Bool)
  | num (q : ℚ)
  | str (s : String)
  | arr (elems : JsonList)
  | obj (fields : JsonFields)
inductive JsonList where
  | nil
  | cons (hd : Json) (tl : JsonList)
inductive JsonFields where
  | nil
  | cons (key : String) (val : Json) (tl : JsonFields)
end

/-- Build an object from a list of key/value pairs. -/
def Json.ofFields (l : List (String × Json)) : Json :=
  .obj (l.foldr (fun kv acc => .cons kv.1 kv.2 acc) .nil)

/-- Build an array from a list of values. -/
def Json.ofElems (l : List Json) : Json :=
  .arr (l.foldr (fun v acc => .cons v acc) .nil)

/-- Property lookup in an object literal (first matching key wins,
as in a JavaScript object, whose keys are unique). -/
def JsonFields.lookupKey : JsonFields → String → Option Json
  | .nil, _ => none
  | .cons k v rest, key => if k == key then some v else rest.lookupKey key

/-- Model of `x[key]` for the modelled values: only objects have own properties
here (array index access and string properties are not used by the
handlers on the resolved paths). -/
def Json.get? : Json → String → Option Json
  | .obj fs, key => fs.lookupKey key
  | _, _ => none

/-- JavaScript truthiness of a possibly-absent value
(`undefined`, `null`, `false`, `0`, `""` are falsy). -/
def truthy : Option Json → Bool
  | none => false
  | some .null => false
  | some (.bool b) => b
  | some (.num q) => q != 0
  | some (.str s) => s != ""
  | some (.arr _) => true
  | some (.obj _) => true

/-- Model of `a || b` on JavaScript values: the left operand if truthy, else the right. -/
def orT (a b : Option Json) : Option Json := if truthy a then a else b

/-- Model of `x?.a?.b...` optional-chained nested lookup. -/
def jget (j : Json) : List String → Option Json
  | [] => some j
  | k :: rest =>
    match j.get? k with
    | some v => jget v rest
    | none => none

/-! ### Character and string helpers (models of the JS string builtins used) -/

/-- Decimal digit test (the `\d` character class on ASCII input,
codepoints 48-57). -/
def isDigitChar (c : Char) : Bool := 48 ≤ c.toNat && c.toNat ≤ 57

/-- The whitespace characters stripped by the `\s` class and by
`String.prototype.trim` (ASCII subset; exotic Unicode spaces are not
modelled). -/
def isJsSpace (c : Char) : Bool :=
  c == ' ' || c == '\t' || c == '\n' || c == '\r' || c == '\x0b' || c == '\x0c'

/-- Model of `trim()` on the character list: drop JS whitespace at both ends. -/
def trimChars (l : List Char) : List Char :=
  ((l.dropWhile isJsSpace).reverse.dropWhile isJsSpace).reverse

/-- Model of `String.prototype.trim`. -/
def trimString (s : String) : String := String.mk (trimChars s.data)

/-- Model of `toLowerCase()` (ASCII). -/
def lowerStr (s : String) : String := String.mk (s.data.map Char.toLower)

/-- Does `l` start with `pat`? -/
def leadsWith : List Char → List Char → Bool
  | [], _ => true
  | _ :: _, [] => false
  | p :: ps, c :: cs => p == c && leadsWith ps cs

/-- Does `l` contain `pat` as a contiguous subsequence? -/
def containsSub (l pat : List Char) : Bool :=
  if leadsWith pat l then true
  else
    match l with
    | [] => false
    | _ :: rest => containsSub rest pat

/-- Model of `String.prototype.includes`. -/
def strContains (s pat : String) : Bool := containsSub s.data pat.data

/-- Does `s` end with `suf`? (used by the fuzzy key matcher). -/
def strEndsWith (s suf : String) : Bool := suf.data.isSuffixOf s.data

/-- Split a character list at `'.'` separators (the `path.split(".")`
used by `getNestedValue`; empty segments are kept, as in JS). -/
def splitDotChars : List Char → List (List Char)
  | [] => [[]]
  | c :: rest =>
    if c == '.' then [] :: splitDotChars rest
    else
      match splitDotChars rest with
      | [] => [[c]]
      | h :: t => (c :: h) :: t

/-- Model of `path.split(".")`. -/
def splitOnDots (s : String) : List String := (splitDotChars s.data).map String.mk

/-! ### Rendering numbers as strings (`String(x)` for numbers) -/

/-- Decimal digits of a natural number, most significant first; the
first argument is fuel and is always sufficient at the call site
`natToChars`. -/
def natToCharsAux : ℕ → ℕ → List Char → List Char
  | 0, n, acc => Char.ofNat (48 + n % 10) :: acc
  | fuel + 1, n, acc =>
    if n < 10 then Char.ofNat (48 + n % 10) :: acc
    else natToCharsAux fuel (n / 10) (Char.ofNat (48 + n % 10) :: acc)

/-- Decimal digits of a natural number. -/
def natToChars (n : ℕ) : List Char := natToCharsAux n n []

/-- Decimal string of a natural number. -/
def natToString (n : ℕ) : String := String.mk (natToChars n)

/-- Decimal character list of an integer. -/
def intChars (i : ℤ) : List Char :=
  if i < 0 then '-' :: natToChars i.natAbs else natToChars i.natAbs

/-- Left-pad with `'0'` to the given width. -/
def padZeros (width : ℕ) (l : List Char) : List Char :=
  List.replicate (width - l.length) '0' ++ l

/-- Drop trailing `'0'` characters. -/
def dropTrailingZeros (l : List Char) : List Char :=
  (l.reverse.dropWhile (fun c => c == '0')).reverse

/-- Model of `String(x)` for a finite number, as a character list.  Integers
print without a decimal point; other values print in positional
decimal when the denominator divides `10 ^ 20` (every double that the
handlers manipulate is such a dyadic rational; the final fallback
branch renders `num/den` and is unreachable for values coming from
JS). -/
def decimalChars (q : ℚ) : List Char :=
  if q.den = 1 then intChars q.num
  else if (q.den : ℕ) ∣ 10 ^ 20 then
    let scaled : ℕ := q.num.natAbs * (10 ^ 20 / q.den)
    let ip := scaled / 10 ^ 20
    let fr := scaled % 10 ^ 20
    (if q.num < 0 then ['-'] else []) ++ natToChars ip ++
      '.' :: dropTrailingZeros (padZeros 20 (natToChars fr))
  else intChars q.num ++ '/' :: natToChars q.den

/-! ### `String(x)` on arbitrary values -/

/-! `String(x)` (and, in `jsArrChars`, the `Array.prototype.join`
convention that `null`/`undefined` elements print as the empty
string). -/
mutual
def jsToString (j : Json) : String :=
  match j with
  | .null => "null"
  | .bool true => "true"
  | .bool false => "false"
  | .num q => String.mk (decimalChars q)
  | .str s => s
  | .arr es => String.mk (jsArrChars es)
  | .obj _ => "[object Object]"
def jsArrChars (es : JsonList) : List Char :=
  match es with
  | .nil => []
  | .cons e tl =>
    (match e with
      | .null => []
      | _ => (jsToString e).data) ++
    (match tl with
      | .nil => []
      | .cons _ _ => ',' :: jsArrChars tl)
end

/-! ### `JSON.stringify` (quote/backslash escaping modelled; control
characters are not) -/

def escapeChars : List Char → List Char
  | [] => []
  | c :: rest =>
    (if c == '"' || c == '\\' then ['\\', c] else [c]) ++ escapeChars rest

mutual
def stringifyChars (j : Json) : List Char :=
  match j with
  | .null => "null".data
  | .bool true => "true".data
  | .bool false => "false".data
  | .num q => decimalChars q
  | .str s => '"' :: (escapeChars s.data ++ ['"'])
  | .arr es => '[' :: (stringifyList es ++ [']'])
  | .obj fs => '\x7b' :: (stringifyObj fs ++ ['\x7d'])
def stringifyList (es : JsonList) : List Char :=
  match es with
  | .nil => []
  | .cons e tl =>
    stringifyChars e ++
    (match tl with
      | .nil => []
      | .cons _ _ => ',' :: stringifyList tl)
def stringifyObj (fs : JsonFields) : List Char :=
  match fs with
  | .nil => []
  | .cons k v tl =>
    '"' :: (escapeChars k.data ++ '"' :: ':' :: stringifyChars v) ++
    (match tl with
      | .nil => []
      | .cons _ _ _ => ',' :: stringifyObj tl)
end

/-- Model of `JSON.stringify(x)`. -/
def jsonStringify (j : Json) : String := String.mk (stringifyChars j)

/-! ### JavaScript numbers -/

/-- A JavaScript number: NaN, the infinities, or a finite value
(modelled as an exact rational). -/
inductive JSNum where
  | nan
  | posInf
  | negInf
  | fin (q : ℚ)
deriving DecidableEq

/-- Numeric value of a list of decimal digits. -/
def digitsVal (l : List Char) : ℕ :=
  l.foldl (fun a c => 10 * a + (c.toNat - 48)) 0

/-- Parse an unsigned decimal numeral: `digits`, `digits.digits`,
`digits.`, or `.digits` (the exponent and hexadecimal forms accepted
by JS `Number` are not modelled). -/
def parseUnsigned (l : List Char) : Option ℚ :=
  let ip := l.takeWhile isDigitChar
  let rest := l.dropWhile isDigitChar
  match rest with
  | [] => if ip.isEmpty then none else some ((digitsVal ip : ℕ) : ℚ)
  | c :: fr =>
    if c == '.' then
      if fr.all isDigitChar && (!ip.isEmpty || !fr.isEmpty) then
        some ((digitsVal ip : ℚ) + (digitsVal fr : ℚ) / (10 : ℚ) ^ fr.length)
      else none
    else none

/-- Parse an optionally signed decimal numeral. -/
def parseSigned (l : List Char) : Option ℚ :=
  match l with
  | [] => parseUnsigned []
  | c :: rest =>
    if c == '+' then parseUnsigned rest
    else if c == '-' then (parseUnsigned rest).map Neg.neg
    else parseUnsigned (c :: rest)

/-- Model of `Number(s)` on a string: trim; empty → 0; `Infinity` forms; else a
decimal numeral or NaN. -/
def strToNumberChars (l : List Char) : JSNum :=
  let t := trimChars l
  if t.isEmpty then .fin 0
  else if t == "Infinity".data || t == "+Infinity".data then .posInf
  else if t == "-Infinity".data then .negInf
  else
    match parseSigned t with
    | some q => .fin q
    | none => .nan

/-- Model of `Number(x)` for a possibly-absent value.  Arrays and plain objects
coerce through their string form, which matches JS `ToPrimitive` for
the JSON-like values the handlers see. -/
def toNumber (v : Option Json) : JSNum :=
  match v with
  | none => .nan
  | some .null => .fin 0
  | some (.bool b) => .fin (if b then 1 else 0)
  | some (.num q) => .fin q
  | some (.str s) => strToNumberChars s.data
  | some (.arr es) => strToNumberChars (jsToString (.arr es)).data
  | some (.obj fs) => strToNumberChars (jsToString (.obj fs)).data

/-- The JS `<` comparison on numbers (false whenever NaN is involved). -/
def jsLt : JSNum → JSNum → Bool
  | .nan, _ => false
  | _, .nan => false
  | .posInf, _ => false
  | _, .posInf => true
  | .negInf, .negInf => false
  | .negInf, _ => true
  | _, .negInf => false
  | .fin a, .fin b => a < b

/-- The JS `<=` comparison on numbers (false whenever NaN is involved). -/
def jsLe : JSNum → JSNum → Bool
  | .nan, _ => false
  | _, .nan => false
  | .negInf, _ => true
  | _, .negInf => false
  | _, .posInf => true
  | .posInf, _ => false
  | .fin a, .fin b => a ≤ b

/-- Model of `Math.ceil`. -/
def jceil : JSNum → JSNum
  | .fin q => .fin ((⌈q⌉ : ℤ) : ℚ)
  | x => x

/-- JS multiplication. -/
def jsMul : JSNum → JSNum → JSNum
  | .nan, _ => .nan
  | _, .nan => .nan
  | .fin a, .fin b => .fin (a * b)
  | .posInf, .posInf => .posInf
  | .posInf, .negInf => .negInf
  | .negInf, .posInf => .negInf
  | .negInf, .negInf => .posInf
  | .posInf, .fin b => if b > 0 then .posInf else if b < 0 then .negInf else .nan
  | .negInf, .fin b => if b > 0 then .negInf else if b < 0 then .posInf else .nan
  | .fin a, .posInf => if a > 0 then .posInf else if a < 0 then .negInf else .nan
  | .fin a, .negInf => if a > 0 then .negInf else if a < 0 then .posInf else .nan

/-! ### Universal field resolver (`src/api/roof.js`, `flattenKeys`,
`getNestedValue`, `resolveField`, `extractFields`; the same three
helpers appear verbatim in the second and third variants of the file) -/

/-! `flattenKeys(obj, prefix)`: all dotted key paths, descending into
nested plain objects only (not arrays, not primitives). -/
mutual
def flattenJson (j : Json) (pre : String) : List String :=
  match j with
  | .obj fs => flattenFields fs pre
  | _ => []
def flattenFields (fs : JsonFields) (pre : String) : List String :=
  match fs with
  | .nil => []
  | .cons k v rest =>
    (if pre = "" then k else pre ++ "." ++ k) ::
      (flattenJson v (if pre = "" then k else pre ++ "." ++ k) ++ flattenFields rest pre)
end

/-- Model of `flattenKeys(body)` with the default empty prefix. -/
def flattenKeys (body : Json) : List String := flattenJson body ""

/-- Model of `getNestedValue(obj, path)`: split the path on `"."` and descend
with optional chaining. -/
def getNestedValue (obj : Json) (path : String) : Option Json :=
  (splitOnDots path).foldl
    (fun value part =>
      match value with
      | some v => v.get? part
      | none => none)
    (some obj)

/-- The key normalization of `resolveField`:
`key.replace(/[\s_-]/g, "").toLowerCase()`. -/
def normKey (s : String) : String :=
  String.mk ((s.data.filter (fun c => !(isJsSpace c || c == '_' || c == '-'))).map Char.toLower)

/-- The fuzzy-match test of `resolveField`: the normalized path equals
the normalized alias, or ends with `"." ++` the normalized alias. -/
def keyMatches (target : String) (k : String) : Bool :=
  normKey k == target || strEndsWith (normKey k) ("." ++ target)

/-- A value passes `resolveField`'s presence test when it is not
`null` and not the empty string (`undefined` is handled separately as
absence). -/
def isUsable : Json → Bool
  | .null => false
  | .str s => s != ""
  | _ => true

/-- The inner loop of `resolveField`: scan the flattened keys for a
fuzzy match whose nested value passes the presence test. -/
def fuzzyScan (body : Json) (target : String) : List String → Option Json
  | [] => none
  | k :: rest =>
    if keyMatches target k then
      match getNestedValue body k with
      | some v => if isUsable v then some v else fuzzyScan body target rest
      | none => fuzzyScan body target rest
    else fuzzyScan body target rest

/-- Model of `resolveField(body, allKeys, possibleKeys)`: for each alias in
priority order, try the direct property first, then the fuzzy scan of
the flattened keys; return the first value passing the presence
test. -/
def resolveField (body : Json) (allKeys : List String) : List String → Option Json
  | [] => none
  | pk :: rest =>
    match body.get? pk with
    | some v =>
      if isUsable v then some v
      else
        match fuzzyScan body (normKey pk) allKeys with
        | some w => some w
        | none => resolveField body allKeys rest
    | none =>
      match fuzzyScan body (normKey pk) allKeys with
      | some w => some w
      | none => resolveField body allKeys rest

/-- Spec-side description of the resolver's search order: for each
alias in priority order, the direct property value (if present)
followed by the values at the fuzzy-matched flattened paths (those
present). -/
def resolutionCandidates (body : Json) (allKeys : List String) (keys : List String) : List Json :=
  keys.flatMap (fun pk =>
    (body.get? pk).toList ++
      (allKeys.filter (keyMatches (normKey pk))).filterMap (getNestedValue body))

/-- Spec-side resolver ("return the first non-absent, non-null,
non-empty-string value found, in alias priority order"): the first
candidate, in that search order, that passes the presence test. -/
def resolveFieldSpec (body : Json) (allKeys : List String) (keys : List String) : Option Json :=
  (resolutionCandidates body allKeys keys).find? isUsable

/-- The record of resolved fields built by `extractFields`. -/
structure Fields where
  jobType : Option Json
  roofType : Option Json
  stories : Option Json
  squares : Option Json
  address : Option Json

/-- Model of `extractFields(body)` with the alias lists of `src/api/roof.js`. -/
def extractFields (body : Json) : Fields :=
  let allKeys := flattenKeys body
  { jobType := resolveField body allKeys ["jobType", "job_type", "type", "customData.jobType"]
    roofType := resolveField body allKeys ["roofType", "roof_type", "customData.roofType"]
    stories := resolveField body allKeys ["stories", "story", "customData.stories"]
    squares := resolveField body allKeys ["squares", "square", "customData.squares"]
    address := resolveField body allKeys
      ["address", "address1", "street_address", "contact.address1", "customData.address"] }

/-! ### Outbound-call environments and effects -/

/-- An external call that a handler attempted. -/
inductive Effect where
  | measureCall
  | writebackCall
deriving DecidableEq

/-- Outcome of one `fetch` (+ `.json()`): either the chain threw
(network error / JSON parse error), or it produced a decoded value. -/
inductive Fetch (α : Type) where
  | thrown
  | ok (val : α)

/-- A geocoding hit: `results[i].geometry.location`. -/
structure GeoLocation where
  lat : ℚ
  lng : ℚ

/-- Decoded geocode response: `status` plus the results list. -/
structure GeoResponse where
  status : String
  results : List GeoLocation

/-- One roof segment: `stats.areaMeters2` (if a `stats` sub-object is
present and carries the field) and the direct `areaMeters2` field. -/
structure Seg where
  statsAreaMeters2 : Option ℚ
  areaMeters2 : Option ℚ

/-- Decoded Solar response: the resolved `roofSegmentStats` list
(after the `solarPotential` / `buildingInsights.solarPotential`
disjunction), or `none` when neither path yields a list. -/
structure SolarResponse where
  roofSegmentStats : Option (List Seg)

/-- The environment a measurement call runs against: whether the API
key is configured, and the outcomes of the geocode and Solar
fetches. -/
structure MeasureEnv where
  apiKey : Bool
  geo : Fetch GeoResponse
  solar : Fetch SolarResponse

/-- Model of `seg.stats?.areaMeters2 || seg.areaMeters2 || 0` (the `||`
fallbacks treat a `0` area as missing). -/
def segArea (seg : Seg) : ℚ :=
  match seg.statsAreaMeters2 with
  | some q => if q == 0 then (seg.areaMeters2.getD 0) else q
  | none => seg.areaMeters2.getD 0

/-- The `segments.reduce((sum, seg) => sum + ..., 0)` total. -/
def totalM2 (segs : List Seg) : ℚ :=
  segs.foldl (fun sum seg => sum + segArea seg) 0

/-! ### `src/api/roof.js`, variant 2 (lines 117-510): validation,
measurement and the retail-estimate handler -/

namespace RoofJs

/-- Model of `validateSquares(squares)`: `Number` coercion, reject `NaN` or
`<= 0`, otherwise `Math.ceil`.  `none` models the
`{ valid: false }` result. -/
def validateSquares (squares : Option Json) : Option JSNum :=
  let value := toNumber squares
  if value == .nan || jsLe value (.fin 0) then none
  else some (jceil value)

/-- Model of `validateStories(stories)`: falsy defaults to `1`; reject `NaN`
or outside `[1, 3]`.  `none` models the `{ valid: false }` result. -/
def validateStories (stories : Option Json) : Option JSNum :=
  let value := if truthy stories then toNumber stories else .fin 1
  if value == .nan || jsLt value (.fin 1) || jsLt (.fin 3) value then none
  else some value

/-- Model of `applySquareBuffer(squares)`. -/
def applySquareBuffer (squares : ℚ) : ℚ :=
  if squares ≤ 15 then squares + 3
  else if squares ≤ 25 then squares + 4
  else squares + 5

/-- Model of `measureRoof(address)` as a function of the call environment:
missing key, a thrown fetch, a non-`"OK"` geocode status, an empty
results list, missing or empty roof segments, or a zero segment total
all yield `null` (`none`); otherwise the roofing-square count
`Math.ceil(totalAreaM2 * 10.7639 / 100)`. -/
def measureRoof (env : MeasureEnv) : Option ℚ :=
  if !env.apiKey then none
  else
    match env.geo with
    | .thrown => none
    | .ok geo =>
      if geo.status != "OK" || geo.results.isEmpty then none
      else
        match env.solar with
        | .thrown => none
        | .ok solar =>
          match solar.roofSegmentStats with
          | none => none
          | some segs =>
            if segs.isEmpty then none
            else
              let totalAreaM2 := totalM2 segs
              if totalAreaM2 == 0 then none
              else some ((⌈totalAreaM2 * (107639 / 10000 : ℚ) / 100⌉ : ℤ) : ℚ)

/-- Model of `PRICING_PER_SQUARE[String(stories)] || PRICING_PER_SQUARE["1"]`
for the 500/575/650 story-tiered table. -/
def pricingLookup (stories : JSNum) : ℚ :=
  if stories == .fin 1 then 500
  else if stories == .fin 2 then 575
  else if stories == .fin 3 then 650
  else 500

/-- The responses variant 2 can produce.  `insurance` is the object
returned by `handleInsuranceJob()`; the handler returns it without
passing it through `res.status(...).json(...)`, which `statusOf`
records as the absence of an HTTP status. -/
inductive Response where
  | methodNotAllowed
  | badRequest (error : String)
  | insurance
  | manualRequired (address : Option Json)
  | estimate (jobType : String) (roofType : Option Json) (stories : JSNum)
      (squares : JSNum) (pricePerSquare : ℚ) (totalPrice : JSNum)
      (measurementMethod : String)
  | serverError

/-- The HTTP status written via `res.status(...)` for each outcome;
`none` for the insurance branch, whose `return handleInsuranceJob()`
never writes to `res` (every other terminal path of the file calls
`res.status(...).json(...)`). -/
def statusOf : Response → Option ℕ
  | .methodNotAllowed => some 405
  | .badRequest _ => some 400
  | .insurance => none
  | .manualRequired _ => some 200
  | .estimate _ _ _ _ _ _ _ => some 200
  | .serverError => some 500

/-- The tail of `handleRetailEstimate` after `finalSquares` is
settled: validate stories, look up the price, multiply, respond. -/
def finishEstimate (fields : Fields) (finalSquares : JSNum)
    (measurementMethod : String) (effs : List Effect) : Response × List Effect :=
  match validateStories fields.stories with
  | none => (.badRequest "Invalid stories value. Must be 1, 2, or 3.", effs)
  | some stories =>
    let pricePerSquare := pricingLookup stories
    let totalPrice := jsMul finalSquares (.fin pricePerSquare)
    (.estimate (lowerStr (trimString (jsToString (fields.jobType.getD .null))))
      fields.roofType stories finalSquares pricePerSquare totalPrice measurementMethod,
     effs)

/-- Model of `handleRetailEstimate(fields, res)`: manual squares when the field
is present (with validation), otherwise measure (requiring a truthy
address), buffering only the measured value. -/
def handleRetailEstimate (fields : Fields) (env : MeasureEnv) : Response × List Effect :=
  match fields.squares with
  | some sq =>
    match validateSquares (some sq) with
    | none => (.badRequest "Invalid squares value. Must be a positive number.", [])
    | some value => finishEstimate fields value "provided" []
  | none =>
    if !truthy fields.address then
      (.badRequest "Address is required when squares are not provided.", [])
    else
      match measureRoof env with
      | none => (.manualRequired fields.address, [.measureCall])
      | some measured =>
        if measured == 0 then (.manualRequired fields.address, [.measureCall])
        else finishEstimate fields (.fin (applySquareBuffer measured))
          "google_solar_api_buffered" [.measureCall]

/-- The variant-2 handler (the JSON-string body parse is modelled out:
the handler receives the decoded body).  A non-object body is the 400
of `parseRequestBody`; a falsy resolved job type
(`if (!fields.jobType)`: absent, but also a present `0` or `false`)
is a 400; a job type containing "insurance" returns
`handleInsuranceJob()` (without a `res` write); otherwise the retail
path runs. -/
def handler (method : String) (body : Json) (env : MeasureEnv) : Response × List Effect :=
  if method != "POST" then (.methodNotAllowed, [])
  else
    match body with
    | .obj _ =>
      let fields := extractFields body
      if !truthy fields.jobType then
        (.badRequest "jobType is required but was not found in the request.", [])
      else if strContains (lowerStr (trimString (jsToString (fields.jobType.getD .null)))) "insurance" then
        (.insurance, [])
      else handleRetailEstimate fields env
    | _ => (.badRequest "Request body must be a JSON object.", [])

end RoofJs

/-! ### `src/api/roof.js`, variant 1 (lines 1-107): the simple
backward-compat handler with direct-key resolution, the 500/600/700
table and a stubbed measurement -/

namespace RoofJs1

/-- The variant-1 `resolve(keys)`: first direct property that is
defined and not the empty string (a `null` value is returned as-is
here: this variant has no null check). -/
def resolve (body : Json) : List String → Option Json
  | [] => none
  | k :: rest =>
    match body.get? k with
    | some v =>
      match v with
      | .str s => if s == "" then resolve body rest else some (.str s)
      | _ => some v
    | none => resolve body rest

/-- Variant-1 responses; all are written with `res.status(200)`. -/
inductive Response where
  | insurance
  | retail (jobType : String) (stories : Json) (squares : JSNum)
      (pricePerSquare : ℚ) (totalEstimate : JSNum)

/-- Every variant-1 response is a 200. -/
def statusOf : Response → ℕ := fun _ => 200

/-- Model of `PRICE_PER_SQUARE[stories] || PRICE_PER_SQUARE["1"]` for the
500/600/700 table, keyed by `String(stories)`. -/
def priceLookup (stories : Json) : ℚ :=
  if jsToString stories == "1" then 500
  else if jsToString stories == "2" then 600
  else if jsToString stories == "3" then 700
  else 500

/-- The variant-1 handler.  `measure(addr)` is the stubbed
`return 20`; calling it is still recorded as a measurement attempt. -/
def handler (body : Json) : Response × List Effect :=
  let jobTypeRaw := resolve body
    ["jobType", "job_type", "Job Type", "contact.jobType", "contact.job_type"]
  let jobType := lowerStr (jsToString ((orT jobTypeRaw (some (.str "retail"))).getD .null))
  if strContains jobType "insurance" then (.insurance, [])
  else
    let stories := (orT (resolve body ["stories", "contact.of_stories"]) (some (.str "1"))).getD .null
    let squaresInput := resolve body ["squares"]
    let pricePerSquare := priceLookup stories
    if truthy squaresInput && !(toNumber squaresInput == .nan) then
      let measuredSquares := jceil (toNumber squaresInput)
      (.retail jobType stories measuredSquares pricePerSquare
        (jsMul measuredSquares (.fin pricePerSquare)), [])
    else
      let measuredSquares : JSNum := .fin 20
      (.retail jobType stories measuredSquares pricePerSquare
        (jsMul measuredSquares (.fin pricePerSquare)), [.measureCall])

end RoofJs1

/-! ### `src/unnamed/part_003`: the production write-back webhook -/

/-- The first maximal run of decimal digits in a character list
(`String(val).match(/\d+/)`, returning the matched text). -/
def firstDigitRun (l : List Char) : Option (List Char) :=
  let rest := l.dropWhile (fun c => !isDigitChar c)
  match rest with
  | [] => none
  | _ :: _ => some (rest.takeWhile isDigitChar)

/-- Outcome of the CRM write-back environment: the two missing
environment variables, a completed HTTP exchange (`resp.ok` or not),
or a thrown network error. -/
inductive WbOutcome where
  | missingToken
  | missingFieldKey
  | httpOk (data : Json)
  | httpErr (status : ℕ) (data : Json)
  | thrown (message : String)

namespace Part3

/-- Model of `normalizeStories(val)`: falsy defaults to 1; extract the first
digit run of `String(val)` when there is one (else coerce the raw
value); default 1 on a non-finite result; clamp into `[1, 3]`. -/
def normalizeStories (val : Option Json) : ℚ :=
  if !truthy val then 1
  else
    let sv := (jsToString (val.getD .null)).data
    let n : JSNum :=
      match firstDigitRun sv with
      | some ds => strToNumberChars ds
      | none => toNumber val
    match n with
    | .fin q => min (max q 1) 3
    | _ => 1

/-- Model of `normalizeSquares(val)`: `Number` coercion; `null` when not
finite or `<= 0`; else `Math.ceil`. -/
def normalizeSquares (val : Option Json) : Option ℚ :=
  match toNumber val with
  | .fin q => if q ≤ 0 then none else some ((⌈q⌉ : ℤ) : ℚ)
  | _ => none

/-- Model of `bufferSquares(sq)`. -/
def bufferSquares (sq : ℚ) : ℚ :=
  if sq ≤ 15 then sq + 3
  else if sq ≤ 25 then sq + 4
  else sq + 5

/-- Model of `roundCurrency(num)`: `Number(num.toFixed(2))` (two-decimal
rounding; the binary-representation artifacts of `toFixed` on exact
halves are not modelled). -/
def roundCurrency (num : ℚ) : ℚ := ((round (num * 100) : ℤ) : ℚ) / 100

/-- Model of `buildFullAddress(body)`: street from three fallbacks, then
append whichever of city / state / zip are truthy, requiring at least
three parts. -/
def buildFullAddress (body : Json) : Option String :=
  let street := orT (body.get? "address1") (orT (jget body ["customData", "address"]) (body.get? "address"))
  if !truthy street then none
  else
    let parts := [street.getD .null]
      ++ (if truthy (body.get? "city") then [(body.get? "city").getD .null] else [])
      ++ (if truthy (body.get? "state") then [(body.get? "state").getD .null] else [])
      ++ (let zip := orT (body.get? "postal_code") (body.get? "postalCode")
          if truthy zip then [zip.getD .null] else [])
    if parts.length ≥ 3 then some (String.intercalate ", " (parts.map jsToString))
    else none

/-- The `contactId` fallback chain. -/
def contactIdOf (body : Json) : Option Json :=
  orT (jget body ["customData", "contact_id"])
    (orT (body.get? "contact_id")
      (orT (jget body ["contact", "id"]) (jget body ["contact", "contact_id"])))

/-- The `address` fallback chain (with `buildFullAddress` in the
middle, as in the source). -/
def addressOf (body : Json) : Option Json :=
  orT (body.get? "full_address")
    (orT (jget body ["customData", "full_address"])
      (orT (jget body ["contact", "full_address"])
        (orT ((buildFullAddress body).map .str)
          (orT (jget body ["customData", "address"])
            (orT (body.get? "address")
              (orT (body.get? "address1")
                (orT (jget body ["contact", "address"]) (jget body ["contact", "address1"]))))))))

/-- The `storiesRaw` fallback chain. -/
def storiesRawOf (body : Json) : Option Json :=
  orT (jget body ["customData", "stories"])
    (orT (body.get? "# of Stories") (body.get? "stories"))

/-- The `squaresRaw` fallback chain. -/
def squaresRawOf (body : Json) : Option Json :=
  orT (jget body ["customData", "squares"])
    (orT (body.get? "Squares") (body.get? "squares"))

/-- Model of `measureRoofSquaresFromSolar(address)` as a function of the call
environment.  An empty geocode results list makes the
`geo.results[0].geometry.location` destructuring throw, which the
surrounding try/catch converts to `null`; everything else matches
`measureRoof` of `src/api/roof.js`. -/
def measureRoofSquaresFromSolar (env : MeasureEnv) : Option ℚ :=
  if !env.apiKey then none
  else
    match env.geo with
    | .thrown => none
    | .ok geo =>
      if geo.status != "OK" then none
      else if geo.results.isEmpty then none
      else
        match env.solar with
        | .thrown => none
        | .ok solar =>
          match solar.roofSegmentStats with
          | none => none
          | some segs =>
            if segs.isEmpty then none
            else
              let total := totalM2 segs
              if total == 0 then none
              else some ((⌈total * (107639 / 10000 : ℚ) / 100⌉ : ℤ) : ℚ)

/-- Model of `updateGhlTotalEstimate(contactId, total)` as a function of the
write-back environment: missing configuration throws before any
network call; a non-`resp.ok` exchange throws
`Error(JSON.stringify(data))`; a network failure propagates its own
message; success returns the decoded response.  `Except.error`
models the thrown error (whose message the caller reports), and the
effect list records whether the CRM endpoint was actually called. -/
def updateGhlTotalEstimate (contactId : Json) (total : ℚ) (wb : WbOutcome) :
    Except String Json × List Effect :=
  match wb with
  | .missingToken => (.error "Missing GHL_PRIVATE_TOKEN", [])
  | .missingFieldKey => (.error "Missing GHL_TOTAL_ESTIMATE_FIELD_KEY", [])
  | .httpOk data => (.ok data, [.writebackCall])
  | .httpErr _ data => (.error (jsonStringify data), [.writebackCall])
  | .thrown msg => (.error msg, [.writebackCall])

/-- Model of `PRICE_PER_SQUARE[stories] || PRICE_PER_SQUARE[1]` for the
500/575/650 table (property keys compare via `String(stories)`). -/
def pricePerSquareOf (stories : ℚ) : ℚ :=
  if stories == 1 then 500
  else if stories == 2 then 575
  else if stories == 3 then 650
  else 500

/-- The part_003 responses (every one is sent with status 200). -/
inductive P3Resp where
  | postOnly
  | missingContact
  | noAddress
  | measurementFailed
  | success (contactId : Json) (total_estimate : ℚ) (squares : ℚ) (stories : ℚ) (ghl : Json)
  | errorCaught (error : String)

/-- The `ok` field of each response body. -/
def p3Ok : P3Resp → Bool
  | .postOnly => false
  | .missingContact => false
  | .noAddress => true
  | .measurementFailed => true
  | .success _ _ _ _ _ => true
  | .errorCaught _ => false

/-- The `updated` field of each response body (absent fields count as
`false`). -/
def p3Updated : P3Resp → Bool
  | .success _ _ _ _ _ => true
  | _ => false

/-- Pricing, currency rounding, the write-back and the final response
(the tail of the handler shared by the manual and measured paths).
A throw from `updateGhlTotalEstimate` lands in the top-level catch,
which answers 200 with `ok: false` and the error message. -/
def finish (contactId : Json) (finalSquares stories : ℚ) (wb : WbOutcome)
    (effs : List Effect) : P3Resp × List Effect :=
  let pricePerSquare := pricePerSquareOf stories
  let totalEstimate := roundCurrency (finalSquares * pricePerSquare)
  match updateGhlTotalEstimate contactId totalEstimate wb with
  | (.ok data, e) => (.success contactId totalEstimate finalSquares stories data, effs ++ e)
  | (.error msg, e) => (.errorCaught msg, effs ++ e)

/-- Model of `providedSquares` truthiness (`if (providedSquares)`). -/
def qTruthy : Option ℚ → Bool
  | none => false
  | some q => q != 0

/-- The part_003 handler (JSON-string body parse modelled out). -/
def handler (method : String) (body : Json) (env : MeasureEnv) (wb : WbOutcome) :
    P3Resp × List Effect :=
  if method != "POST" then (.postOnly, [])
  else
    let contactId := contactIdOf body
    if !truthy contactId then (.missingContact, [])
    else
      let address := addressOf body
      let stories := normalizeStories (storiesRawOf body)
      let providedSquares := normalizeSquares (squaresRawOf body)
      if qTruthy providedSquares then
        finish (contactId.getD .null) (providedSquares.getD 0) stories wb []
      else if !truthy address then (.noAddress, [])
      else
        match measureRoofSquaresFromSolar env with
        | none => (.measurementFailed, [.measureCall])
        | some measured =>
          if measured == 0 then (.measurementFailed, [.measureCall])
          else finish (contactId.getD .null) (bufferSquares measured) stories wb [.measureCall]

end Part3

/-! ### `src/unnamed/part_004`: the debug iteration (its
`normalizeStories` has no digit-run extraction and floors) -/

namespace Part4

/-- Model of `normalizeStories(val)` of part_004: plain `Number` coercion,
default 1 when not finite, floor, clamp into `[1, 3]`. -/
def normalizeStories (val : Option Json) : ℚ :=
  match toNumber val with
  | .fin q => min (max ((⌊q⌋ : ℤ) : ℚ) 1) 3
  | _ => 1

end Part4

/-! ### `src/unnamed/part_006`: the asynchronous callback bridge -/

namespace Callback

/-- The record stored per callback id:
`{ status, totalEstimate, message, receivedAt: Date.now() }`. -/
structure CallbackRecord where
  status : Option Json
  totalEstimate : Option Json
  message : Option Json
  receivedAt : ℕ

/-- The module-level `latestResults` mapping, most recent entry
first (assigning to a key shadows any earlier entry). -/
abbrev Store := List (String × CallbackRecord)

/-- The callback-bridge responses. -/
inductive CbResp where
  | methodNotAllowed
  | missingCallbackId
  | stored
deriving DecidableEq

/-- The POST handler: non-POST is a 405, a falsy `callbackId` is a
400, otherwise the record is stored under
`String(callbackId)` (property keys are strings) and a 200 is
returned.  `now` stands for `Date.now()`. -/
def handler (method : String) (body : Json) (now : ℕ) (store : Store) : Store × CbResp :=
  if method != "POST" then (store, .methodNotAllowed)
  else
    let callbackId := body.get? "callbackId"
    if !truthy callbackId then (store, .missingCallbackId)
    else
      ((jsToString (callbackId.getD .null),
        { status := body.get? "status"
          totalEstimate := body.get? "totalEstimate"
          message := body.get? "message"
          receivedAt := now }) :: store,
       .stored)

/-- Model of `getResult(callbackId)`: `latestResults[callbackId] || null`
(a stored record object is always truthy, so the `|| null` only
converts absence). -/
def getResult (store : Store) (callbackId : String) : Option CallbackRecord :=
  (store.find? (fun e => e.1 == callbackId)).map (fun e => e.2)

end Callback

/-! ## Helper lemmas -/

/-- The inner fuzzy loop returns the first usable value among the
nested values at the matching flattened keys. -/
theorem fuzzyScan_eq_find (body : Json) (target : String) (ks : List String) :
    fuzzyScan body target ks =
      ((ks.filter (keyMatches target)).filterMap (getNestedValue body)).find? isUsable := by
  induction ks with
  | nil => rfl
  | cons k rest ih =>
    by_cases h : keyMatches target k
    · simp only [fuzzyScan, h, if_true, List.filter_cons, List.filterMap_cons]
      cases hget : getNestedValue body k with
      | none => simpa using ih
      | some v =>
        by_cases hu : isUsable v
        · simp [List.find?_cons, hu]
        · simpa [List.find?_cons, hu] using ih
    · simpa [fuzzyScan, h] using ih

/-- Unfolding of the resolver on a cons of alias keys. -/
theorem resolveField_cons (body : Json) (allKeys : List String) (pk : String) (rest : List String) :
    resolveField body allKeys (pk :: rest) =
      match body.get? pk with
      | some v =>
        if isUsable v then some v
        else
          match fuzzyScan body (normKey pk) allKeys with
          | some w => some w
          | none => resolveField body allKeys rest
      | none =>
        match fuzzyScan body (normKey pk) allKeys with
        | some w => some w
        | none => resolveField body allKeys rest := rfl

/-- The resolver agrees with its spec-side description: the first
usable value in the candidate order (direct value of each alias,
then the fuzzy matches, aliases in priority order). -/
theorem resolveField_eq_spec (body : Json) (allKeys : List String) :
    ∀ keys : List String,
      resolveField body allKeys keys = resolveFieldSpec body allKeys keys := by
  intro keys
  induction keys with
  | nil => rfl
  | cons pk rest ih =>
    rw [resolveField_cons]
    simp only [resolveFieldSpec, resolutionCandidates, List.flatMap_cons, List.append_assoc,
      List.find?_append, fuzzyScan_eq_find]
    cases hget : body.get? pk with
    | none =>
      simp only [Option.toList_none, List.find?_nil, Option.none_or]
      cases hfz : ((allKeys.filter (keyMatches (normKey pk))).filterMap (getNestedValue body)).find? isUsable with
      | none =>
        simp only [Option.none_or]
        exact ih
      | some w => rfl
    | some v =>
      by_cases hu : isUsable v
      · simp [List.find?_cons, hu]
      · simp only [Option.toList_some, List.find?_singleton, hu, cond_false, Option.none_or]
        cases hfz : ((allKeys.filter (keyMatches (normKey pk))).filterMap (getNestedValue body)).find? isUsable with
        | none =>
          simp only [Option.none_or]
          exact ih
        | some w => rfl

/-! ## Claims -/

/-- Claim C2: for every payload and prioritized alias list,
`resolveField` returns the first non-absent, non-null,
non-empty-string value in alias priority order, trying each alias
first as a direct key and then as a normalized exact or `.`-suffix
match against the flattened key paths
(`resolveFieldSpec` states exactly that search order); and on the
payload `{customData: {squares: 12}, squares: 99}` with alias
priority `["squares", "customData.squares"]` it returns `99`,
not `12`. -/
theorem claim_C2_resolver_first_usable :
    (∀ (body : Json) (allKeys possibleKeys : List String),
        resolveField body allKeys possibleKeys = resolveFieldSpec body allKeys possibleKeys) ∧
    resolveField (Json.ofFields [("customData", Json.ofFields [("squares", .num 12)]), ("squares", .num 99)])
        (flattenKeys (Json.ofFields [("customData", Json.ofFields [("squares", .num 12)]), ("squares", .num 99)]))
        ["squares", "customData.squares"] = some (.num 99) ∧
    some (Json.num 99) ≠ some (Json.num 12) := by
  refine ⟨fun body allKeys possibleKeys => resolveField_eq_spec body allKeys possibleKeys, rfl, ?_⟩
  intro h
  have h2 : (99 : ℚ) = 12 := by injection (Option.some.inj h)
  norm_num at h2

/-- Claim C3: the measurement buffer adds 3 up to 15 squares, 4 up to
25, and 5 beyond; its tabulated values are 10↦13, 15↦18, 16↦20,
25↦29, 26↦31; it is monotone non-decreasing; and the part_003
handler applies it exactly once and only on the auto-measured path —
a manually supplied squares value reaches the response untouched. -/
theorem claim_C3_buffer :
    (∀ raw : ℚ,
        (raw ≤ 15 → Part3.bufferSquares raw = raw + 3) ∧
        (15 < raw → raw ≤ 25 → Part3.bufferSquares raw = raw + 4) ∧
        (25 < raw → Part3.bufferSquares raw = raw + 5)) ∧
    (Part3.bufferSquares 10 = 13 ∧ Part3.bufferSquares 15 = 18 ∧ Part3.bufferSquares 16 = 20 ∧
      Part3.bufferSquares 25 = 29 ∧ Part3.bufferSquares 26 = 31) ∧
    (∀ a b : ℚ, a ≤ b → Part3.bufferSquares a ≤ Part3.bufferSquares b) ∧
    (∀ (body : Json) (env : MeasureEnv) (wb : WbOutcome) (n : ℚ) (g : Json),
        truthy (Part3.contactIdOf body) = true →
        Part3.normalizeSquares (Part3.squaresRawOf body) = some n → n ≠ 0 →
        wb = .httpOk g →
        Part3.handler "POST" body env wb =
          (.success ((Part3.contactIdOf body).getD .null)
            (Part3.roundCurrency (n * Part3.pricePerSquareOf (Part3.normalizeStories (Part3.storiesRawOf body))))
            n (Part3.normalizeStories (Part3.storiesRawOf body)) g, [.writebackCall])) ∧
    (∀ (body : Json) (env : MeasureEnv) (wb : WbOutcome) (m : ℚ) (g : Json),
        truthy (Part3.contactIdOf body) = true →
        Part3.qTruthy (Part3.normalizeSquares (Part3.squaresRawOf body)) = false →
        truthy (Part3.addressOf body) = true →
        Part3.measureRoofSquaresFromSolar env = some m → m ≠ 0 →
        wb = .httpOk g →
        Part3.handler "POST" body env wb =
          (.success ((Part3.contactIdOf body).getD .null)
            (Part3.roundCurrency (Part3.bufferSquares m *
              Part3.pricePerSquareOf (Part3.normalizeStories (Part3.storiesRawOf body))))
            (Part3.bufferSquares m) (Part3.normalizeStories (Part3.storiesRawOf body)) g,
           [.measureCall, .writebackCall])) := by
  refine ⟨?_, ?_, ?_, ?_, ?_⟩
  · intro raw
    refine ⟨fun h1 => ?_, fun h1 h2 => ?_, fun h1 => ?_⟩ <;>
      simp only [Part3.bufferSquares] <;> split_ifs <;> linarith
  · refine ⟨?_, ?_, ?_, ?_, ?_⟩ <;> · simp only [Part3.bufferSquares]; norm_num
  · intro a b hab
    simp only [Part3.bufferSquares]
    split_ifs <;> linarith
  · intro body env wb n g hc hsq hn hwb
    subst hwb
    simp [Part3.handler, hc, hsq, Part3.qTruthy, hn, Part3.finish, Part3.updateGhlTotalEstimate]
  · intro body env wb m g hc hsq ha hm hmz hwb
    subst hwb
    simp [Part3.handler, hc, hsq, ha, hm, hmz, Part3.finish, Part3.updateGhlTotalEstimate]

/-- Claim C3 witness: the buffer facts and the untouched manual path,
instantiated concretely. -/
theorem claim_C3_buffer_witness :
    Part3.bufferSquares 7 = 7 + 3 ∧ Part3.bufferSquares 10 = 13 ∧
    Part3.bufferSquares 3 ≤ Part3.bufferSquares 20 ∧
    Part3.handler "POST"
        (Json.ofFields [("contact_id", .str "abc"), ("stories", .num 1), ("squares", .num 18)])
        ⟨false, .thrown, .thrown⟩ (.httpOk .null) =
      (.success ((Part3.contactIdOf (Json.ofFields [("contact_id", .str "abc"), ("stories", .num 1), ("squares", .num 18)])).getD .null)
        (Part3.roundCurrency (18 * Part3.pricePerSquareOf (Part3.normalizeStories (Part3.storiesRawOf (Json.ofFields [("contact_id", .str "abc"), ("stories", .num 1), ("squares", .num 18)])))))
        18 (Part3.normalizeStories (Part3.storiesRawOf (Json.ofFields [("contact_id", .str "abc"), ("stories", .num 1), ("squares", .num 18)])))
        .null, [.writebackCall]) :=
  ⟨(claim_C3_buffer.1 7).1 (by norm_num),
   claim_C3_buffer.2.1.1,
   claim_C3_buffer.2.2.1 3 20 (by norm_num),
   claim_C3_buffer.2.2.2.1 _ _ _ 18 _ (by with_unfolding_all rfl) (by with_unfolding_all rfl)
     (by norm_num) rfl⟩

/-- Claim C4 (code bug evaluation): on the insurance input
`{jobType: "insurance claim"}` the variant-2 handler of
`src/api/roof.js` short-circuits with no estimate and no outbound
call, but returns `handleInsuranceJob()` without writing it through
`res.status(200).json(...)`, so no 200 response is sent
(`statusOf` is `none`); the variant-1 handler of the same file does
send its insurance response with status 200 and also attempts no
outbound call. -/
theorem claim_C4_insurance_eval :
    RoofJs.handler "POST" (Json.ofFields [("jobType", .str "insurance claim")])
        ⟨false, .thrown, .thrown⟩ = (.insurance, []) ∧
    RoofJs.statusOf .insurance = none ∧
    RoofJs1.handler (Json.ofFields [("jobType", .str "insurance claim")]) = (.insurance, []) ∧
    RoofJs1.statusOf .insurance = 200 :=
  ⟨rfl, rfl, rfl, rfl⟩

/-- Claim C5: every geocoding or area-lookup failure on the
auto-measure path — a thrown fetch, a non-`"OK"` geocode status, an
empty results list, missing or empty roof segments, a zero segment
total (plus the missing-key guard) — makes `measureRoof` return
absence rather than raise, and the handler then answers with the 200
`manual_required` outcome, never a 5xx. -/
theorem claim_C5_measure_failures_absorbed :
    (∀ env : MeasureEnv,
        (env.apiKey = false ∨ env.geo = .thrown ∨ env.solar = .thrown ∨
          (∃ g, env.geo = .ok g ∧ (g.status ≠ "OK" ∨ g.results = [])) ∨
          (∃ s, env.solar = .ok s ∧ (s.roofSegmentStats = none ∨ s.roofSegmentStats = some [])) ∨
          (∃ s segs, env.solar = .ok s ∧ s.roofSegmentStats = some segs ∧ totalM2 segs = 0)) →
        RoofJs.measureRoof env = none) ∧
    (∀ (fields : Fields) (env : MeasureEnv),
        fields.squares = none → truthy fields.address = true →
        RoofJs.measureRoof env = none →
        RoofJs.handleRetailEstimate fields env = (.manualRequired fields.address, [.measureCall]) ∧
        RoofJs.statusOf (.manualRequired fields.address) = some 200) := by
  constructor
  · rintro ⟨k, geo, solar⟩ h
    rcases h with h | h | h | ⟨g, hg, hs⟩ | ⟨s, hs, hseg⟩ | ⟨s, segs, hs, hseg, htot⟩
    · have hk : k = false := h
      subst hk
      rfl
    · have hg2 : geo = Fetch.thrown := h
      subst hg2
      cases k <;> rfl
    · have hs2 : solar = Fetch.thrown := h
      subst hs2
      cases k with
      | false => rfl
      | true =>
        cases geo with
        | thrown => rfl
        | ok g => simp [RoofJs.measureRoof, ite_self]
    · have hg2 : geo = Fetch.ok g := hg
      subst hg2
      cases k with
      | false => rfl
      | true =>
        rcases hs with hs | hs
        · have hne : (g.status != "OK") = true := by simpa using hs
          simp [RoofJs.measureRoof, hne]
        · simp [RoofJs.measureRoof, hs]
    · have hs2 : solar = Fetch.ok s := hs
      subst hs2
      cases k with
      | false => rfl
      | true =>
        cases geo with
        | thrown => rfl
        | ok g => rcases hseg with hseg | hseg <;> simp [RoofJs.measureRoof, hseg, ite_self]
    · have hs2 : solar = Fetch.ok s := hs
      subst hs2
      cases k with
      | false => rfl
      | true =>
        cases geo with
        | thrown => rfl
        | ok g => simp [RoofJs.measureRoof, hseg, htot, ite_self]
  · intro fields env h1 h2 h3
    refine ⟨?_, rfl⟩
    simp [RoofJs.handleRetailEstimate, h1, h2, h3]

/-- Claim C5 witness: a geocode answering `ZERO_RESULTS` yields no
measurement, and the handler answers `manual_required`. -/
theorem claim_C5_witness :
    RoofJs.measureRoof ⟨true, .ok ⟨"ZERO_RESULTS", []⟩, .thrown⟩ = none ∧
    RoofJs.handleRetailEstimate ⟨some (.str "retail"), none, none, none, some (.str "123 Main St")⟩
        ⟨true, .ok ⟨"ZERO_RESULTS", []⟩, .thrown⟩ =
      (.manualRequired (some (.str "123 Main St")), [.measureCall]) :=
  ⟨claim_C5_measure_failures_absorbed.1 _
      (Or.inr (Or.inr (Or.inr (Or.inl ⟨⟨"ZERO_RESULTS", []⟩, rfl, Or.inl (by decide)⟩)))),
   (claim_C5_measure_failures_absorbed.2
      ⟨some (.str "retail"), none, none, none, some (.str "123 Main St")⟩
      ⟨true, .ok ⟨"ZERO_RESULTS", []⟩, .thrown⟩ rfl rfl
      (claim_C5_measure_failures_absorbed.1 _
        (Or.inr (Or.inr (Or.inr (Or.inl ⟨⟨"ZERO_RESULTS", []⟩, rfl, Or.inl (by decide)⟩)))))).1⟩

/-- Claim C6: a non-2xx CRM write-back makes
`updateGhlTotalEstimate` throw with the stringified upstream body;
the shared pricing/write-back tail turns that throw into a response
with `ok: false` carrying the upstream error; and concretely on the
manual-squares path the part_003 handler ends in that failure
response, never a silent success acknowledgment. -/
theorem claim_C6_writeback_failure_surfaced :
    (∀ (contactId : Json) (total : ℚ) (s : ℕ) (d : Json),
        Part3.updateGhlTotalEstimate contactId total (.httpErr s d) =
          (.error (jsonStringify d), [.writebackCall])) ∧
    (∀ (contactId : Json) (finalSquares stories : ℚ) (s : ℕ) (d : Json) (effs : List Effect),
        Part3.finish contactId finalSquares stories (.httpErr s d) effs =
          (.errorCaught (jsonStringify d), effs ++ [.writebackCall]) ∧
        Part3.p3Ok (.errorCaught (jsonStringify d)) = false ∧
        Part3.p3Updated (.errorCaught (jsonStringify d)) = false) ∧
    (∀ (body : Json) (env : MeasureEnv) (s : ℕ) (d : Json) (n : ℚ),
        truthy (Part3.contactIdOf body) = true →
        Part3.normalizeSquares (Part3.squaresRawOf body) = some n → n ≠ 0 →
        Part3.handler "POST" body env (.httpErr s d) =
          (.errorCaught (jsonStringify d), [.writebackCall])) := by
  refine ⟨fun _ _ _ _ => rfl, fun _ _ _ _ _ _ => ⟨rfl, rfl, rfl⟩, ?_⟩
  intro body env s d n hc hsq hn
  simp [Part3.handler, hc, hsq, Part3.qTruthy, hn, Part3.finish, Part3.updateGhlTotalEstimate]

/-- Claim C6 witness: a 401 write-back on a concrete manual request
surfaces the upstream body, not a success. -/
theorem claim_C6_witness :
    Part3.handler "POST" (Json.ofFields [("contact_id", .str "abc"), ("squares", .num 18)])
        ⟨false, .thrown, .thrown⟩
        (.httpErr 401 (Json.ofFields [("msg", .str "bad token")])) =
      (.errorCaught (jsonStringify (Json.ofFields [("msg", .str "bad token")])), [.writebackCall]) :=
  claim_C6_writeback_failure_surfaced.2.2 _ _ 401 _ 18
    (by with_unfolding_all rfl) (by with_unfolding_all rfl) (by norm_num)

/-- Claim C9: whenever a measurement succeeds with a Solar response
whose segments are `segs`, the returned roofing-square count is
`ceil(totalM2 × 10.7639 / 100)` — in both `measureRoof`
(`src/api/roof.js`) and `measureRoofSquaresFromSolar` (part_003) —
and a 200 m² total yields 22 squares. -/
theorem claim_C9_area_conversion :
    (∀ (env : MeasureEnv) (s : SolarResponse) (segs : List Seg) (n : ℚ),
        env.solar = .ok s → s.roofSegmentStats = some segs →
        RoofJs.measureRoof env = some n →
        n = ((⌈totalM2 segs * (107639 / 10000 : ℚ) / 100⌉ : ℤ) : ℚ)) ∧
    (∀ (env : MeasureEnv) (s : SolarResponse) (segs : List Seg) (n : ℚ),
        env.solar = .ok s → s.roofSegmentStats = some segs →
        Part3.measureRoofSquaresFromSolar env = some n →
        n = ((⌈totalM2 segs * (107639 / 10000 : ℚ) / 100⌉ : ℤ) : ℚ)) ∧
    ((⌈(200 : ℚ) * (107639 / 10000) / 100⌉ : ℤ) : ℚ) = 22 ∧
    RoofJs.measureRoof ⟨true, .ok ⟨"OK", [⟨0, 0⟩]⟩, .ok ⟨some [⟨some 200, none⟩]⟩⟩ = some 22 := by
  refine ⟨?_, ?_, by with_unfolding_all rfl, by with_unfolding_all rfl⟩
  · rintro ⟨k, geo, solar⟩ s segs n hs hseg h
    have hs2 : solar = Fetch.ok s := hs
    subst hs2
    cases k with
    | false => exact absurd h (by simp [RoofJs.measureRoof])
    | true =>
      cases geo with
      | thrown => exact absurd h (by simp [RoofJs.measureRoof])
      | ok g =>
        simp only [RoofJs.measureRoof, hseg] at h
        split_ifs at h <;> simp_all
  · rintro ⟨k, geo, solar⟩ s segs n hs hseg h
    have hs2 : solar = Fetch.ok s := hs
    subst hs2
    cases k with
    | false => exact absurd h (by simp [Part3.measureRoofSquaresFromSolar])
    | true =>
      cases geo with
      | thrown => exact absurd h (by simp [Part3.measureRoofSquaresFromSolar])
      | ok g =>
        simp only [Part3.measureRoofSquaresFromSolar, hseg] at h
        split_ifs at h <;> simp_all

/-- Claim C9 witness: the conversion law applied to the concrete
200 m² single-segment environment. -/
theorem claim_C9_witness :
    (22 : ℚ) = ((⌈totalM2 [⟨some 200, none⟩] * (107639 / 10000 : ℚ) / 100⌉ : ℤ) : ℚ) :=
  claim_C9_area_conversion.1 ⟨true, .ok ⟨"OK", [⟨0, 0⟩]⟩, .ok ⟨some [⟨some 200, none⟩]⟩⟩
    ⟨some [⟨some 200, none⟩]⟩ [⟨some 200, none⟩] 22 rfl rfl
    (by with_unfolding_all rfl)

/-- Claim C10: a successfully processed POST with callback id `c`
stores its record at the front, and `getResult c` returns exactly
that most recent record; `getResult` is `null` on every id never
stored; and storing under one id leaves every other id's result
unchanged. -/
theorem claim_C10_callback_store :
    (∀ (store : Callback.Store) (body : Json) (now : ℕ) (v : Json),
        body.get? "callbackId" = some v → truthy (some v) = true →
        Callback.handler "POST" body now store =
          ((jsToString v, ⟨body.get? "status", body.get? "totalEstimate", body.get? "message", now⟩) :: store, .stored) ∧
        Callback.getResult
            ((jsToString v, ⟨body.get? "status", body.get? "totalEstimate", body.get? "message", now⟩) :: store)
            (jsToString v) =
          some ⟨body.get? "status", body.get? "totalEstimate", body.get? "message", now⟩) ∧
    (∀ id : String, Callback.getResult [] id = none) ∧
    (∀ (store : Callback.Store) (id : String),
        (∀ e ∈ store, e.1 ≠ id) → Callback.getResult store id = none) ∧
    (∀ (store : Callback.Store) (k : String) (rec : Callback.CallbackRecord) (id : String),
        id ≠ k →
        Callback.getResult ((k, rec) :: store) id = Callback.getResult store id) := by
  refine ⟨?_, fun _ => rfl, ?_, ?_⟩
  · intro store body now v h1 h2
    constructor
    · simp [Callback.handler, h1, h2]
    · simp [Callback.getResult, List.find?_cons]
  · intro store id h
    simp only [Callback.getResult]
    rw [List.find?_eq_none.mpr]
    · rfl
    · intro e he
      simpa using h e he
  · intro store k rec id h
    simp only [Callback.getResult, List.find?_cons]
    have : (k == id) = false := by
      simp [Ne.symm h]
    simp [this]

/-- Claim C10 witness: store under `"cb1"`, read it back, and check
an unrelated id is untouched. -/
theorem claim_C10_witness :
    Callback.handler "POST"
        (Json.ofFields [("callbackId", .str "cb1"), ("status", .str "done"), ("totalEstimate", .num 9000)])
        5 [] =
      (([("cb1", ⟨some (.str "done"), some (.num 9000), none, 5⟩)] : Callback.Store), .stored) ∧
    Callback.getResult [("cb1", ⟨some (.str "done"), some (.num 9000), none, 5⟩)] "cb1" =
      some ⟨some (.str "done"), some (.num 9000), none, 5⟩ ∧
    Callback.getResult [("cb1", ⟨some (.str "done"), some (.num 9000), none, 5⟩)] "cb2" =
      Callback.getResult [] "cb2" := by
  have h := claim_C10_callback_store.1 []
    (Json.ofFields [("callbackId", .str "cb1"), ("status", .str "done"), ("totalEstimate", .num 9000)])
    5 (.str "cb1") rfl rfl
  have h3 := claim_C10_callback_store.2.2.2 [] "cb1"
    ⟨some (.str "done"), some (.num 9000), none, 5⟩ "cb2" (by decide)
  exact ⟨h.1, h.2, h3⟩

/-! ## Digit-run and coercion lemmas for the stories normalizer -/

/-- The digit character written for `n % 10` is a digit. -/
theorem isDigitChar_ofNat_mod (n : ℕ) : isDigitChar (Char.ofNat (48 + n % 10)) = true := by
  have h : n % 10 < 10 := Nat.mod_lt _ (by norm_num)
  interval_cases h2 : n % 10 <;> decide

/-- Every output of the digit-renderer loop contains a digit. -/
theorem natToCharsAux_has_digit (fuel : ℕ) :
    ∀ (n : ℕ) (acc : List Char), ∃ c ∈ natToCharsAux fuel n acc, isDigitChar c = true := by
  induction fuel with
  | zero =>
    intro n acc
    exact ⟨Char.ofNat (48 + n % 10), List.mem_cons_self _ _, isDigitChar_ofNat_mod n⟩
  | succ fuel ih =>
    intro n acc
    simp only [natToCharsAux]
    by_cases h : n < 10
    · simp only [h, if_true]
      exact ⟨Char.ofNat (48 + n % 10), List.mem_cons_self _ _, isDigitChar_ofNat_mod n⟩
    · simp only [h, if_false]
      exact ih (n / 10) _

/-- The list `natToChars n` contains a digit. -/
theorem natToChars_has_digit (n : ℕ) : ∃ c ∈ natToChars n, isDigitChar c = true :=
  natToCharsAux_has_digit n n []

/-- The list `intChars i` contains a digit. -/
theorem intChars_has_digit (i : ℤ) : ∃ c ∈ intChars i, isDigitChar c = true := by
  simp only [intChars]
  obtain ⟨c, hc, hd⟩ := natToChars_has_digit i.natAbs
  split_ifs
  · exact ⟨c, List.mem_cons_of_mem _ hc, hd⟩
  · exact ⟨c, hc, hd⟩

/-- The decimal rendering of any rational contains a digit. -/
theorem decimalChars_has_digit (q : ℚ) : ∃ c ∈ decimalChars q, isDigitChar c = true := by
  simp only [decimalChars]
  split_ifs
  · exact intChars_has_digit q.num
  · obtain ⟨c, hc, hd⟩ := natToChars_has_digit (q.num.natAbs * (10 ^ 20 / q.den) / 10 ^ 20)
    exact ⟨c, List.mem_append_left _ (List.mem_append_right _ hc), hd⟩
  · obtain ⟨c, hc, hd⟩ := natToChars_has_digit (q.num.natAbs * (10 ^ 20 / q.den) / 10 ^ 20)
    exact ⟨c, List.mem_append_left _ (List.mem_append_right _ hc), hd⟩
  · obtain ⟨c, hc, hd⟩ := intChars_has_digit q.num
    exact ⟨c, List.mem_append_left _ hc, hd⟩

/-- When `firstDigitRun` finds nothing, the input has no digit. -/
theorem firstDigitRun_none {l : List Char} (h : firstDigitRun l = none) :
    ∀ c ∈ l, isDigitChar c = false := by
  intro c hc
  simp only [firstDigitRun] at h
  cases hrest : l.dropWhile (fun c => !isDigitChar c) with
  | nil =>
    have := List.dropWhile_eq_nil_iff.mp hrest c hc
    simpa using this
  | cons d t => rw [hrest] at h; exact absurd h (by simp)

/-- The head of a non-trivial `dropWhile` result fails the predicate. -/
theorem dropWhile_head_false {p : Char → Bool} :
    ∀ (l : List Char) {c : Char} {t : List Char}, l.dropWhile p = c :: t → p c = false := by
  intro l
  induction l with
  | nil => intro c t h; exact absurd h (by simp)
  | cons a as ih =>
    intro c t h
    by_cases hp : p a
    · rw [List.dropWhile_cons_of_pos hp] at h
      exact ih h
    · rw [List.dropWhile_cons_of_neg hp] at h
      cases h
      simpa using hp

/-- When `firstDigitRun` finds a run, the run is a non-empty
all-digit list. -/
theorem firstDigitRun_some {l ds : List Char} (h : firstDigitRun l = some ds) :
    ds ≠ [] ∧ ∀ c ∈ ds, isDigitChar c = true := by
  simp only [firstDigitRun] at h
  cases hrest : l.dropWhile (fun c => !isDigitChar c) with
  | nil => rw [hrest] at h; exact absurd h (by simp)
  | cons d t =>
    rw [hrest] at h
    have hd : isDigitChar d = true := by
      have := dropWhile_head_false l hrest
      simpa using this
    have hds : ds = (d :: t).takeWhile isDigitChar := by
      exact (Option.some.inj h).symm
    constructor
    · rw [hds, List.takeWhile_cons, hd]
      simp
    · intro c hc
      rw [hds] at hc
      exact List.mem_takeWhile_imp hc

/-- Digits are not JS whitespace. -/
theorem digit_not_space {c : Char} (h : isDigitChar c = true) : isJsSpace c = false := by
  have hb : ∀ d : Char, d.toNat < 48 → (c == d) = false := by
    intro d hd
    rw [beq_eq_false_iff_ne]
    intro he
    subst he
    simp only [isDigitChar, Bool.and_eq_true, decide_eq_true_eq] at h
    omega
  simp only [isJsSpace, hb ' ' (by decide), hb '\t' (by decide), hb '\n' (by decide),
    hb '\r' (by decide), hb '\x0b' (by decide), hb '\x0c' (by decide),
    Bool.or_self, Bool.or_false]

/-- Trimming a non-empty all-digit list is the identity. -/
theorem trimChars_digits {l : List Char} (hne : l ≠ [])
    (hd : ∀ c ∈ l, isDigitChar c = true) : trimChars l = l := by
  cases l with
  | nil => exact absurd rfl hne
  | cons a as =>
    have ha : isJsSpace a = false := digit_not_space (hd a (List.mem_cons_self _ _))
    simp only [trimChars]
    rw [List.dropWhile_cons_of_neg (by simp [ha])]
    cases hrev : (a :: as).reverse with
    | nil => exact absurd hrev (by simp)
    | cons b bs =>
      have hb : b ∈ a :: as :=
        List.mem_reverse.mp (by rw [hrev]; exact List.mem_cons_self _ _)
      have hbs : isJsSpace b = false := digit_not_space (hd b hb)
      rw [List.dropWhile_cons_of_neg (by simp [hbs]), ← hrev, List.reverse_reverse]

/-- Parsing a non-empty all-digit list yields its numeric value. -/
theorem parseUnsigned_digits {l : List Char} (hne : l ≠ [])
    (hd : ∀ c ∈ l, isDigitChar c = true) : parseUnsigned l = some ((digitsVal l : ℕ) : ℚ) := by
  simp only [parseUnsigned]
  rw [List.takeWhile_eq_self_iff.mpr hd, List.dropWhile_eq_nil_iff.mpr hd]
  simp [List.isEmpty_iff, hne]

/-- A digit is not a sign character. -/
theorem parseSigned_digits {l : List Char} (hne : l ≠ [])
    (hd : ∀ c ∈ l, isDigitChar c = true) : parseSigned l = parseUnsigned l := by
  cases l with
  | nil => exact absurd rfl hne
  | cons a as =>
    have ha := hd a (List.mem_cons_self _ _)
    have hplus : (a == '+') = false := by
      rw [beq_eq_false_iff_ne]
      intro he
      subst he
      simp [isDigitChar] at ha
    have hminus : (a == '-') = false := by
      rw [beq_eq_false_iff_ne]
      intro he
      subst he
      simp [isDigitChar] at ha
    simp only [parseSigned, hplus, hminus, Bool.false_eq_true, if_false]

/-- Coercing a non-empty all-digit string yields its numeric value. -/
theorem strToNumberChars_digits {l : List Char} (hne : l ≠ [])
    (hd : ∀ c ∈ l, isDigitChar c = true) :
    strToNumberChars l = .fin ((digitsVal l : ℕ) : ℚ) := by
  have hne2 : ∀ (c : Char) (pre : List Char), isDigitChar c = false → l ≠ c :: pre := by
    intro c pre hc he
    have := hd c (he ▸ List.mem_cons_self _ _)
    rw [this] at hc
    exact absurd hc (by simp)
  have hI : l ≠ "Infinity".data := by
    have : "Infinity".data = 'I' :: "nfinity".data := rfl
    rw [this]
    exact hne2 'I' _ (by decide)
  have hpI : l ≠ "+Infinity".data := by
    have : "+Infinity".data = '+' :: "Infinity".data := rfl
    rw [this]
    exact hne2 '+' _ (by decide)
  have hmI : l ≠ "-Infinity".data := by
    have : "-Infinity".data = '-' :: "Infinity".data := rfl
    rw [this]
    exact hne2 '-' _ (by decide)
  simp only [strToNumberChars, trimChars_digits hne hd]
  rw [if_neg (by simp [List.isEmpty_iff, hne])]
  rw [if_neg (by simp only [Bool.or_eq_true, beq_iff_eq, not_or]; exact ⟨hI, hpI⟩)]
  rw [if_neg (by simp only [beq_iff_eq]; exact hmI)]
  rw [parseSigned_digits hne hd, parseUnsigned_digits hne hd]

/-- Without digits, `parseUnsigned` fails. -/
theorem parseUnsigned_noDigit {l : List Char} (hd : ∀ c ∈ l, isDigitChar c = false)
    (hne : l ≠ []) : parseUnsigned l = none := by
  cases l with
  | nil => exact absurd rfl hne
  | cons a as =>
    have ha := hd a (List.mem_cons_self _ _)
    simp only [parseUnsigned]
    rw [List.takeWhile_cons_of_neg (by simp [ha]), List.dropWhile_cons_of_neg (by simp [ha])]
    by_cases hdot : a = '.'
    · subst hdot
      by_cases hfr : as = []
      · subst hfr
        simp
      · cases has : as with
        | nil => exact absurd has hfr
        | cons b bs =>
          have hb := hd b (by rw [has]; exact List.mem_cons_of_mem _ (List.mem_cons_self _ _))
          have hall : ((b :: bs).all isDigitChar) = false := by
            simp only [List.all_cons, hb, Bool.false_and]
          simp [hall]
    · have hadot : (a == '.') = false := by
        rw [beq_eq_false_iff_ne]
        exact hdot
      simp only [hadot, Bool.false_eq_true, if_false]

/-- Without digits, `parseSigned` fails. -/
theorem parseSigned_noDigit {l : List Char} (hd : ∀ c ∈ l, isDigitChar c = false)
    (hne : l ≠ []) : parseSigned l = none := by
  cases l with
  | nil => exact absurd rfl hne
  | cons a as =>
    simp only [parseSigned]
    by_cases hp : (a == '+') = true
    · rw [if_pos hp]
      by_cases has : as = []
      · subst has; rfl
      · exact parseUnsigned_noDigit (fun c hc => hd c (List.mem_cons_of_mem _ hc)) has
    · rw [if_neg hp]
      by_cases hm : (a == '-') = true
      · rw [if_pos hm]
        by_cases has : as = []
        · subst has; rfl
        · rw [parseUnsigned_noDigit (fun c hc => hd c (List.mem_cons_of_mem _ hc)) has]
          rfl
      · rw [if_neg hm]
        exact parseUnsigned_noDigit hd (by simp)

/-- Membership is preserved by trimming. -/
theorem mem_trimChars {l : List Char} {c : Char} (h : c ∈ trimChars l) : c ∈ l := by
  simp only [trimChars] at h
  rw [List.mem_reverse] at h
  have h1 := (List.dropWhile_sublist isJsSpace).mem h
  rw [List.mem_reverse] at h1
  exact (List.dropWhile_sublist isJsSpace).mem h1

/-- Without digits, string coercion yields 0 (whitespace only), an
infinity (the literal `Infinity` spellings), or NaN. -/
theorem strToNumberChars_noDigit {l : List Char} (hd : ∀ c ∈ l, isDigitChar c = false) :
    strToNumberChars l = .fin 0 ∨ strToNumberChars l = .nan ∨
    strToNumberChars l = .posInf ∨ strToNumberChars l = .negInf := by
  have hdt : ∀ c ∈ trimChars l, isDigitChar c = false := fun c hc => hd c (mem_trimChars hc)
  simp only [strToNumberChars]
  by_cases h0 : (trimChars l).isEmpty = true
  · simp [h0]
  · rw [if_neg h0]
    by_cases h1 : (trimChars l == "Infinity".data || trimChars l == "+Infinity".data) = true
    · simp [h1]
    · rw [if_neg h1]
      by_cases h2 : (trimChars l == "-Infinity".data) = true
      · simp [h2]
      · rw [if_neg h2]
        rw [parseSigned_noDigit hdt (by simpa [List.isEmpty_iff] using h0)]
        simp

/-- Clamping a natural number into `[1, 3]` lands on 1, 2 or 3. -/
theorem clampNat_mem (m : ℕ) :
    min (max ((m : ℕ) : ℚ) 1) 3 = 1 ∨ min (max ((m : ℕ) : ℚ) 1) 3 = 2 ∨
    min (max ((m : ℕ) : ℚ) 1) 3 = 3 := by
  match m with
  | 0 => left; norm_num
  | 1 => left; norm_num
  | 2 => right; left; norm_num
  | (k + 3) =>
    right; right
    have h3 : (3 : ℚ) ≤ ((k + 3 : ℕ) : ℚ) := by push_cast; linarith
    rw [max_eq_left (by linarith), min_eq_right h3]

/-- Clamping the floor of a rational into `[1, 3]` lands on 1, 2
or 3. -/
theorem clampFloor_mem (q : ℚ) :
    min (max ((⌊q⌋ : ℤ) : ℚ) 1) 3 = 1 ∨ min (max ((⌊q⌋ : ℤ) : ℚ) 1) 3 = 2 ∨
    min (max ((⌊q⌋ : ℤ) : ℚ) 1) 3 = 3 := by
  rcases le_or_lt (⌊q⌋ : ℤ) 1 with h | h
  · left
    have : ((⌊q⌋ : ℤ) : ℚ) ≤ 1 := by exact_mod_cast h
    rw [max_eq_right this]
    norm_num
  · rcases le_or_lt 3 (⌊q⌋ : ℤ) with h2 | h2
    · right; right
      have : (3 : ℚ) ≤ ((⌊q⌋ : ℤ) : ℚ) := by exact_mod_cast h2
      rw [max_eq_left (by linarith), min_eq_right this]
    · right; left
      have he : (⌊q⌋ : ℤ) = 2 := by omega
      rw [he]
      norm_num

/-- The part_003 stories normalizer only ever returns 1, 2 or 3. -/
theorem part3_normalizeStories_mem (v : Option Json) :
    Part3.normalizeStories v = 1 ∨ Part3.normalizeStories v = 2 ∨ Part3.normalizeStories v = 3 := by
  by_cases ht : truthy v = true
  · cases v with
    | none => simp [truthy] at ht
    | some j =>
      simp only [Part3.normalizeStories, ht, Bool.not_true, Bool.false_eq_true, if_false,
        Option.getD_some]
      cases hfd : firstDigitRun (jsToString j).data with
      | some ds =>
        obtain ⟨hne, hdig⟩ := firstDigitRun_some hfd
        dsimp only
        rw [strToNumberChars_digits hne hdig]
        exact clampNat_mem (digitsVal ds)
      | none =>
        have hnd := firstDigitRun_none hfd
        cases j with
        | null => simp [truthy] at ht
        | bool b =>
          cases b with
          | false => simp [truthy] at ht
          | true =>
            left
            simp only [toNumber]
            norm_num
        | num q =>
          exfalso
          obtain ⟨c, hc, hdc⟩ := decimalChars_has_digit q
          have hf : isDigitChar c = false := hnd c (by simpa [jsToString] using hc)
          rw [hdc] at hf
          exact absurd hf (by simp)
        | str s2 =>
          have hcls := strToNumberChars_noDigit (l := s2.data) (by simpa [jsToString] using hnd)
          rcases hcls with h | h | h | h <;> simp only [toNumber, h]
          · left; norm_num
          · trivial
          · trivial
          · trivial
        | arr es =>
          have hcls := strToNumberChars_noDigit (l := (jsToString (.arr es)).data) hnd
          rcases hcls with h | h | h | h <;> simp only [toNumber, h]
          · left; norm_num
          · trivial
          · trivial
          · trivial
        | obj fs =>
          have hcls := strToNumberChars_noDigit (l := (jsToString (.obj fs)).data) hnd
          rcases hcls with h | h | h | h <;> simp only [toNumber, h]
          · left; norm_num
          · trivial
          · trivial
          · trivial
  · have ht2 : truthy v = false := by simpa using ht
    left
    simp [Part3.normalizeStories, ht2]

/-- The part_004 stories normalizer only ever returns 1, 2 or 3. -/
theorem part4_normalizeStories_mem (v : Option Json) :
    Part4.normalizeStories v = 1 ∨ Part4.normalizeStories v = 2 ∨ Part4.normalizeStories v = 3 := by
  simp only [Part4.normalizeStories]
  cases htn : toNumber v with
  | fin q => exact clampFloor_mem q
  | nan => left; rfl
  | posInf => left; rfl
  | negInf => left; rfl

/-- Claim C7 counterexample: the part_004 `normalizeStories` (one of
the two cited implementations) does not extract the first integer
substring — `"2 Stories"` normalizes to 1 there, not 2, because
`Number("2 Stories")` is NaN and NaN defaults to 1. -/
theorem claim_C7_counterexample_part4 :
    Part4.normalizeStories (some (.str "2 Stories")) = 1 ∧ (1 : ℚ) ≠ 2 :=
  ⟨by with_unfolding_all rfl, by norm_num⟩

/-- Claim C7 (amended): the part_003 `normalizeStories` extracts the
first digit run of `String(val)` and clamps it into `[1, 3]` (so
`"2 Stories"` normalizes to 2 there), defaults to 1 on falsy input;
the part_004 variant instead coerces with `Number` (so `"2 Stories"`
defaults to 1 there) and defaults to 1 on NaN; both variants always
land in `[1, 3]`, fix every value in `{1, 2, 3}`, and are idempotent
under re-application. -/
theorem claim_C7_amended_stories :
    (∀ (s : String) (ds : List Char), (s != "") = true → firstDigitRun s.data = some ds →
        Part3.normalizeStories (some (.str s)) = min (max ((digitsVal ds : ℕ) : ℚ) 1) 3) ∧
    Part3.normalizeStories (some (.str "2 Stories")) = 2 ∧
    Part4.normalizeStories (some (.str "2 Stories")) = 1 ∧
    (∀ v : Option Json, 1 ≤ Part3.normalizeStories v ∧ Part3.normalizeStories v ≤ 3 ∧
        1 ≤ Part4.normalizeStories v ∧ Part4.normalizeStories v ≤ 3) ∧
    (∀ v : Option Json, truthy v = false → Part3.normalizeStories v = 1) ∧
    (∀ v : Option Json, toNumber v = .nan → Part4.normalizeStories v = 1) ∧
    (∀ k : ℚ, k = 1 ∨ k = 2 ∨ k = 3 →
        Part3.normalizeStories (some (.num k)) = k ∧ Part4.normalizeStories (some (.num k)) = k) ∧
    (∀ v : Option Json,
        Part3.normalizeStories (some (.num (Part3.normalizeStories v))) = Part3.normalizeStories v ∧
        Part4.normalizeStories (some (.num (Part4.normalizeStories v))) = Part4.normalizeStories v) := by
  refine ⟨?_, by with_unfolding_all rfl, by with_unfolding_all rfl, ?_, ?_, ?_, ?_, ?_⟩
  · intro s ds hs hfd
    obtain ⟨hne, hdig⟩ := firstDigitRun_some hfd
    have ht : truthy (some (.str s)) = true := by simpa [truthy] using hs
    simp only [Part3.normalizeStories, ht, Bool.not_true, Bool.false_eq_true, if_false,
      Option.getD_some, jsToString]
    rw [hfd]
    dsimp only
    rw [strToNumberChars_digits hne hdig]
  · intro v
    have h3 := part3_normalizeStories_mem v
    have h4 := part4_normalizeStories_mem v
    refine ⟨?_, ?_, ?_, ?_⟩
    · rcases h3 with h | h | h <;> rw [h] <;> norm_num
    · rcases h3 with h | h | h <;> rw [h] <;> norm_num
    · rcases h4 with h | h | h <;> rw [h] <;> norm_num
    · rcases h4 with h | h | h <;> rw [h] <;> norm_num
  · intro v hv
    simp [Part3.normalizeStories, hv]
  · intro v hv
    simp [Part4.normalizeStories, hv]
  · rintro k (rfl | rfl | rfl) <;>
      exact ⟨by with_unfolding_all rfl, by with_unfolding_all rfl⟩
  · intro v
    constructor
    · rcases part3_normalizeStories_mem v with h | h | h <;> rw [h] <;> with_unfolding_all rfl
    · rcases part4_normalizeStories_mem v with h | h | h <;> rw [h] <;> with_unfolding_all rfl

/-- Claim C7 witness: the digit-run law applied to `"2 Stories"`, and
the fixpoint law applied at 2. -/
theorem claim_C7_witness :
    Part3.normalizeStories (some (.str "2 Stories")) = min (max ((digitsVal ['2'] : ℕ) : ℚ) 1) 3 ∧
    Part3.normalizeStories (some (.num 2)) = 2 :=
  ⟨claim_C7_amended_stories.1 "2 Stories" ['2'] (by decide) (by decide),
   (claim_C7_amended_stories.2.2.2.2.2.2.1 2 (Or.inr (Or.inl rfl))).1⟩

/-- Claim C8 counterexample: `validateSquares` of `src/api/roof.js`
accepts the non-finite squares input `"Infinity"` (it checks `isNaN`,
not `Number.isFinite`), returning a valid infinite value instead of
signalling invalid input. -/
theorem claim_C8_counterexample_infinity :
    RoofJs.validateSquares (some (.str "Infinity")) = some .posInf ∧
    RoofJs.validateSquares (some (.str "Infinity")) ≠ none := by
  have h : RoofJs.validateSquares (some (.str "Infinity")) = some .posInf := by
    with_unfolding_all rfl
  exact ⟨h, by rw [h]; simp⟩

/-- Claim C8 (amended): part_003's `normalizeSquares` rejects every
NaN, non-finite or non-positive input and ceilings every positive
finite one; `validateSquares` of `src/api/roof.js` does the same
except that an input coercing to `+Infinity` is accepted (it tests
`isNaN` rather than `Number.isFinite`). -/
theorem claim_C8_amended_squares :
    (∀ v : Option Json, toNumber v = .nan →
        Part3.normalizeSquares v = none ∧ RoofJs.validateSquares v = none) ∧
    (∀ (v : Option Json) (q : ℚ), toNumber v = .fin q → q ≤ 0 →
        Part3.normalizeSquares v = none ∧ RoofJs.validateSquares v = none) ∧
    (∀ v : Option Json, toNumber v = .negInf →
        Part3.normalizeSquares v = none ∧ RoofJs.validateSquares v = none) ∧
    (∀ v : Option Json, toNumber v = .posInf → Part3.normalizeSquares v = none) ∧
    (∀ (v : Option Json) (q : ℚ), toNumber v = .fin q → 0 < q →
        Part3.normalizeSquares v = some ((⌈q⌉ : ℤ) : ℚ) ∧
        RoofJs.validateSquares v = some (.fin ((⌈q⌉ : ℤ) : ℚ))) := by
  refine ⟨?_, ?_, ?_, ?_, ?_⟩
  · intro v h
    exact ⟨by simp [Part3.normalizeSquares, h], by simp [RoofJs.validateSquares, h]⟩
  · intro v q h hq
    refine ⟨by simp [Part3.normalizeSquares, h, hq], ?_⟩
    simp [RoofJs.validateSquares, h, jsLe, hq]
  · intro v h
    exact ⟨by simp [Part3.normalizeSquares, h], by simp [RoofJs.validateSquares, h, jsLe]⟩
  · intro v h
    simp [Part3.normalizeSquares, h]
  · intro v q h hq
    refine ⟨by simp [Part3.normalizeSquares, h, not_le.mpr hq], ?_⟩
    simp [RoofJs.validateSquares, h, jsLe, not_le.mpr hq, jceil]

/-- Claim C8 witness: 5/2 ceilings to 3 in both validators, and a
non-numeric string is rejected. -/
theorem claim_C8_witness :
    Part3.normalizeSquares (some (.num (5 / 2))) = some ((⌈(5 / 2 : ℚ)⌉ : ℤ) : ℚ) ∧
    RoofJs.validateSquares (some (.num (5 / 2))) = some (.fin ((⌈(5 / 2 : ℚ)⌉ : ℤ) : ℚ)) ∧
    Part3.normalizeSquares (some (.str "abc")) = none :=
  ⟨(claim_C8_amended_squares.2.2.2.2 (some (.num (5 / 2))) (5 / 2) rfl (by norm_num)).1,
   (claim_C8_amended_squares.2.2.2.2 (some (.num (5 / 2))) (5 / 2) rfl (by norm_num)).2,
   (claim_C8_amended_squares.1 (some (.str "abc")) (by with_unfolding_all rfl)).1⟩

/-- Claim C1: a non-insurance request with a squares value validating
to 18 and a stories value validating to 1 prices at 500 per square
under the 500/575/650 table, for a total of 18 × 500 = 9000 — through
`handleRetailEstimate` of `src/api/roof.js` and through the part_003
handler (whose response carries `total_estimate` 9000). -/
theorem claim_C1_scenario_a :
    (∀ (body : Json) (env : MeasureEnv) (jt sq : Json),
        (∃ fs, body = Json.obj fs) →
        (extractFields body).jobType = some jt →
        truthy (some jt) = true →
        strContains (lowerStr (trimString (jsToString jt))) "insurance" = false →
        (extractFields body).squares = some sq →
        RoofJs.validateSquares (some sq) = some (.fin 18) →
        RoofJs.validateStories (extractFields body).stories = some (.fin 1) →
        RoofJs.handler "POST" body env =
          (.estimate (lowerStr (trimString (jsToString jt))) (extractFields body).roofType
            (.fin 1) (.fin 18) 500 (.fin 9000) "provided", [])) ∧
    (∀ (body : Json) (env : MeasureEnv) (g : Json),
        truthy (Part3.contactIdOf body) = true →
        Part3.normalizeSquares (Part3.squaresRawOf body) = some 18 →
        Part3.normalizeStories (Part3.storiesRawOf body) = 1 →
        Part3.handler "POST" body env (.httpOk g) =
          (.success ((Part3.contactIdOf body).getD .null) 9000 18 1 g, [.writebackCall])) := by
  constructor
  · rintro body env jt sq ⟨fs, rfl⟩ hjt htr hins hsq hvs hvst
    norm_num [RoofJs.handler, RoofJs.handleRetailEstimate, RoofJs.finishEstimate,
      RoofJs.pricingLookup, jsMul, hjt, htr, hins, hsq, hvs, hvst]
  · intro body env g hc hsq hst
    have hr : Part3.roundCurrency (18 * Part3.pricePerSquareOf 1) = 9000 := by
      with_unfolding_all rfl
    simp [Part3.handler, hc, hsq, Part3.qTruthy, Part3.finish,
      Part3.updateGhlTotalEstimate, hst, hr]

/-- Claim C1 witness: the concrete request
`{jobType: "retail", stories: 1, squares: 18}` (with a contact id for
the write-back variant) produces squares 18, price 500, total 9000. -/
theorem claim_C1_witness :
    RoofJs.handler "POST"
        (Json.ofFields [("jobType", .str "retail"), ("stories", .num 1), ("squares", .num 18)])
        ⟨false, .thrown, .thrown⟩ =
      (.estimate (lowerStr (trimString (jsToString (.str "retail"))))
        (extractFields (Json.ofFields [("jobType", .str "retail"), ("stories", .num 1), ("squares", .num 18)])).roofType
        (.fin 1) (.fin 18) 500 (.fin 9000) "provided", []) ∧
    Part3.handler "POST"
        (Json.ofFields [("contact_id", .str "abc"), ("stories", .num 1), ("squares", .num 18)])
        ⟨false, .thrown, .thrown⟩ (.httpOk .null) =
      (.success ((Part3.contactIdOf (Json.ofFields [("contact_id", .str "abc"), ("stories", .num 1), ("squares", .num 18)])).getD .null)
        9000 18 1 .null, [.writebackCall]) :=
  ⟨claim_C1_scenario_a.1 _ ⟨false, .thrown, .thrown⟩ (.str "retail") (.num 18)
      ⟨_, rfl⟩ rfl rfl rfl rfl rfl rfl,
   claim_C1_scenario_a.2 _ ⟨false, .thrown, .thrown⟩ .null rfl
      (by with_unfolding_all rfl) (by with_unfolding_all rfl)⟩

/-- Claim C2 witness: the resolver/spec agreement applied to the
precedence example payload. -/
theorem claim_C2_witness :
    resolveField (Json.ofFields [("customData", Json.ofFields [("squares", .num 12)]), ("squares", .num 99)])
        (flattenKeys (Json.ofFields [("customData", Json.ofFields [("squares", .num 12)]), ("squares", .num 99)]))
        ["squares", "customData.squares"] =
      resolveFieldSpec (Json.ofFields [("customData", Json.ofFields [("squares", .num 12)]), ("squares", .num 99)])
        (flattenKeys (Json.ofFields [("customData", Json.ofFields [("squares", .num 12)]), ("squares", .num 99)]))
        ["squares", "customData.squares"] :=
  claim_C2_resolver_first_usable.1 _ _ _
